import Mathlib

/-!
# One-time-message service: shallow embedding and verification

Embedding of the backend of the one-time-message repository
(`src/backend/src/index.ts`, the main single-table variant, together with the
split-table variant found in `src/unnamed/part_000` and the client-side decode
of `src/frontend/src/App.tsx`).

Modelling conventions:
* JavaScript strings are lists of UTF-16 code units (`List Nat`), matching the
  source's use of `split('')`, `charCodeAt` and `String.fromCharCode`.
* Timestamps are `Nat` milliseconds.  The source stores ISO-8601 UTC strings and
  compares them with SQLite string comparison; for strings produced by
  `Date.prototype.toISOString` (fixed length, fixed format, UTC) lexicographic
  order coincides with chronological order, so `Nat` with `<` is faithful.
* `crypto.randomBytes(n)` is modelled by passing the drawn byte list explicitly;
  call sites carry the length facts the source guarantees.
* The SQLite `messages` (and, in the split variant, `keys`) table is a list of
  rows; `INSERT` appends (callers supply a fresh id, as the `PRIMARY KEY`
  constraint demands), `SELECT ... WHERE id = $id` is `List.find?`, and
  `DELETE ... WHERE p` is `List.filter (¬ p)`.
* The `xss` sanitizer is an npm dependency, not code of this repository; it is
  modelled as an abstract function parameter `san` wherever the handlers call it.
-/

/-- A JavaScript string as its list of UTF-16 code units. -/
abbrev JSStr := List Nat

/-- Code-unit of the hex digit of a value `0 ≤ n < 16`, lower case, as produced
by `Buffer.prototype.toString('hex')`. -/
def hexDigit (n : Nat) : Nat := if n < 10 then 48 + n else 87 + n

/-- One byte rendered as two hex digits. -/
def byteToHex (b : Nat) : List Nat := [hexDigit (b / 16), hexDigit (b % 16)]

/-- `generateKey` (src/backend/src/index.ts:34-35):
`crypto.randomBytes(length).toString('hex')`.  The random draw is the explicit
`bytes` argument; the call site passes `length = message.length` bytes. -/
def generateKey (bytes : List Nat) : JSStr := bytes.flatMap byteToHex

/-- The repeating-key XOR transform of `Messages.set`
(src/backend/src/index.ts:48-53):
`message.split('').map((char, i) => String.fromCharCode(char.charCodeAt(0) ^ key.charCodeAt(i % key.length))).join('')`.
`getD _ 0` matches JavaScript: out-of-range `charCodeAt` yields `NaN`, which
`^` coerces to `0`. -/
def xorEncode (message key : JSStr) : JSStr :=
  message.enum.map (fun p => p.2 ^^^ key.getD (p.1 % key.length) 0)

/-- The client-side decode of `fetchMessage` (src/frontend/src/App.tsx:157-164):
character-for-character the same transform as `xorEncode`. -/
def xorDecode (ciphertext key : JSStr) : JSStr :=
  ciphertext.enum.map (fun p => p.2 ^^^ key.getD (p.1 % key.length) 0)

theorem generateKey_length (bytes : List Nat) :
    (generateKey bytes).length = 2 * bytes.length := by
  induction bytes with
  | nil => rfl
  | cons b bs ih =>
    simp [generateKey, byteToHex] at ih ⊢
    omega

theorem xorEncode_length (m k : JSStr) : (xorEncode m k).length = m.length := by
  simp [xorEncode]

theorem xorEncode_get (m k : JSStr) (i : Nat) (h1 : i < (xorEncode m k).length)
    (h2 : i < m.length) :
    (xorEncode m k).get ⟨i, h1⟩ = m.get ⟨i, h2⟩ ^^^ k.getD (i % k.length) 0 := by
  simp [xorEncode]

/-- Round trip of the XOR codec: decoding an encoding with the same key
restores the message (both directions use the identical key character at each
index, and XOR is an involution). -/
theorem xorDecode_xorEncode (m k : JSStr) :
    xorDecode (xorEncode m k) k = m := by
  apply List.ext_get
  · simp [xorDecode, xorEncode]
  · intro i h1 h2
    simp [xorDecode, xorEncode, Nat.xor_cancel_right]

/-! ## The main single-table variant (src/backend/src/index.ts) -/

/-- A row of the `messages` table (src/backend/src/index.ts:10-21 and the
`Message` type, lines 23-32). -/
structure MsgRecord where
  id : JSStr
  message : JSStr
  key : JSStr
  createdAt : Nat
  expiresAt : Nat
  ipReader : Option JSStr
  ipWriter : Option JSStr
  userAgent : Option JSStr
deriving DecidableEq, Repr

/-- The persistent state: the `messages` table as a list of rows. -/
abbrev Store := List MsgRecord

/-- `const expires = 60 * 60 * 24 // 24 hours` (src/backend/src/index.ts:45),
in seconds. -/
def expires : Nat := 60 * 60 * 24

namespace Messages

/-- `Messages.set` (src/backend/src/index.ts:38-70).  `keyBytes` and `id` are
the two `crypto.randomBytes` draws (the call sites draw `message.length` bytes
for the key and 16 bytes for the id); `now` is the clock in milliseconds
(`Date.now()` / `new Date()`); `ipWriter`/`userAgent` come from the request
headers.  The `INSERT` appends a row; the `PRIMARY KEY` constraint obliges the
caller to supply an id not already in the table. -/
def set (message : JSStr) (keyBytes id : JSStr) (ipWriter userAgent : Option JSStr)
    (now : Nat) (s : Store) : JSStr × Store :=
  let key := generateKey keyBytes
  let createdAt := now
  let expiresAt := now + expires * 1000
  let encryptedMessage := xorEncode message key
  (id, s ++ [{ id := id, message := encryptedMessage, key := key,
               createdAt := createdAt, expiresAt := expiresAt,
               ipReader := none, ipWriter := ipWriter, userAgent := userAgent }])

/-- `Messages.get` (src/backend/src/index.ts:72-85):
`SELECT * FROM messages WHERE id = $id`, or `null`.  The `console.log` probes
inside the `try` block read but never write.  Note the query has no condition
on `expiresAt`. -/
def get (id : JSStr) (s : Store) : Option MsgRecord :=
  s.find? (fun r => decide (r.id = id))

/-- `Messages.destroy` (src/backend/src/index.ts:87-90):
`DELETE FROM messages WHERE id = $id`. -/
def destroy (id : JSStr) (s : Store) : Store :=
  s.filter (fun r => decide (¬ r.id = id))

/-- `Messages.purgeExpired` (src/backend/src/index.ts:92-96):
`DELETE FROM messages WHERE expiresAt < $date` at the current time `now`. -/
def purgeExpired (now : Nat) (s : Store) : Store :=
  s.filter (fun r => decide (¬ r.expiresAt < now))

end Messages

/-- The `GET /available/:id` handler (src/backend/src/index.ts:117-120):
`messages.get(xss(params.id)) ? 'exist' : error(404)`.  `san` is the `xss`
sanitizer; the handler only reads, so it returns a `Bool` (true = `'exist'`,
false = 404 `NotFound`). -/
def availableHandler (san : JSStr → JSStr) (rawId : JSStr) (s : Store) : Bool :=
  (Messages.get (san rawId) s).isSome

/-- The `GET /message/:id` handler (src/backend/src/index.ts:121-127) composed
with the client-side decode of `fetchMessage` (src/frontend/src/App.tsx:157-164):
look the record up, destroy, and return the decoded plaintext of the record if
one was found (404 `NotFound` otherwise).  This realises the spec's
`fetchAndConsume`. -/
def fetchAndConsume (san : JSStr → JSStr) (rawId : JSStr) (s : Store) :
    Option JSStr × Store :=
  let id := san rawId
  let message := Messages.get id s
  let s' := Messages.destroy id s
  match message with
  | none => (none, s')
  | some r => (some (xorDecode r.message r.key), s')

/-- The `POST /message` handler (src/backend/src/index.ts:128-138):
sanitize the body with `xss`, then `messages.set`. -/
def postMessage (san : JSStr → JSStr) (body : JSStr) (keyBytes id : JSStr)
    (ipWriter userAgent : Option JSStr) (now : Nat) (s : Store) : JSStr × Store :=
  let message := san body
  Messages.set message keyBytes id ipWriter userAgent now s

/-! ## The split-table variant (src/unnamed/part_000, lines 59-219) -/

/-- A row of the split variant's `messages` table (no `key` column). -/
structure SplitMsgRecord where
  id : JSStr
  message : JSStr
  createdAt : Nat
  expiresAt : Nat
  ipReader : Option JSStr
  ipWriter : Option JSStr
  userAgent : Option JSStr
deriving DecidableEq, Repr

/-- A row of the split variant's `keys` side table. -/
structure KeyRecord where
  id : JSStr
  key : JSStr
deriving DecidableEq, Repr

/-- The split variant's persistent state: `messages` plus the `keys` side table. -/
structure SplitStore where
  messages : List SplitMsgRecord
  keys : List KeyRecord
deriving DecidableEq, Repr

namespace SplitMessages

/-- Split-variant `Messages.set` (src/unnamed/part_000:100-140): inserts the
encoded message into `messages` and the key into `keys`. -/
def set (message : JSStr) (keyBytes id : JSStr) (ipWriter userAgent : Option JSStr)
    (now : Nat) (s : SplitStore) : JSStr × SplitStore :=
  let key := generateKey keyBytes
  let encryptedMessage := xorEncode message key
  (id, { messages := s.messages ++
           [{ id := id, message := encryptedMessage, createdAt := now,
              expiresAt := now + expires * 1000,
              ipReader := none, ipWriter := ipWriter, userAgent := userAgent }],
         keys := s.keys ++ [{ id := id, key := key }] })

/-- Split-variant `Messages.get` (src/unnamed/part_000:142-157): selects from
both tables and returns `null` unless both rows are present. -/
def get (id : JSStr) (s : SplitStore) : Option (SplitMsgRecord × KeyRecord) :=
  match s.messages.find? (fun r => decide (r.id = id)),
        s.keys.find? (fun r => decide (r.id = id)) with
  | some m, some k => some (m, k)
  | _, _ => none

/-- Split-variant `Messages.destroy` (src/unnamed/part_000:159-162):
`DELETE FROM keys WHERE id = $id` — it deletes only the key row, never the
`messages` row. -/
def destroy (id : JSStr) (s : SplitStore) : SplitStore :=
  { s with keys := s.keys.filter (fun r => decide (¬ r.id = id)) }

/-- `Messages.deleteExpiredKeys` (src/unnamed/part_000:164-169):
`DELETE FROM keys WHERE id NOT IN (SELECT id FROM messages WHERE expiresAt > $date)` —
a key row survives exactly when some `messages` row with the same id has
`expiresAt > now`. -/
def deleteExpiredKeys (now : Nat) (s : SplitStore) : SplitStore :=
  let keep := fun (k : KeyRecord) =>
    s.messages.any (fun m => decide (m.id = k.id) && decide (now < m.expiresAt))
  { s with keys := s.keys.filter keep }

/-- Split-variant `Messages.purgeExpired` (src/unnamed/part_000:171-176):
first `deleteExpiredKeys`, then `DELETE FROM messages WHERE expiresAt < $date`. -/
def purgeExpired (now : Nat) (s : SplitStore) : SplitStore :=
  let s1 := deleteExpiredKeys now s
  { s1 with messages := s1.messages.filter (fun m => decide (¬ m.expiresAt < now)) }

end SplitMessages

/-- Split-variant `GET /message/:id` handler (src/unnamed/part_000:201-207)
composed with the client-side decode, as for the main variant. -/
def splitFetchAndConsume (san : JSStr → JSStr) (rawId : JSStr) (s : SplitStore) :
    Option JSStr × SplitStore :=
  let id := san rawId
  let message := SplitMessages.get id s
  let s' := SplitMessages.destroy id s
  match message with
  | none => (none, s')
  | some (m, k) => (some (xorDecode m.message k.key), s')

/-! ## Helper lemmas about the store -/

theorem find?_append_none {α : Type} (p : α → Bool) {l1 : List α} (l2 : List α)
    (h : l1.find? p = none) : (l1 ++ l2).find? p = l2.find? p := by
  induction l1 with
  | nil => rfl
  | cons a l ih =>
    cases hpa : p a with
    | true => simp [List.find?_cons, hpa] at h
    | false =>
      simp only [List.cons_append, List.find?_cons, hpa] at h ⊢
      exact ih h

theorem Messages.get_eq_none {id : JSStr} {s : Store}
    (h : ∀ r ∈ s, r.id ≠ id) : Messages.get id s = none := by
  apply List.find?_eq_none.mpr
  intro r hr
  simpa using h r hr

theorem Messages.get_set_fresh (p keyBytes id : JSStr) (ipW uA : Option JSStr)
    (now : Nat) (s : Store) (hfresh : ∀ r ∈ s, r.id ≠ id) :
    Messages.get id ((Messages.set p keyBytes id ipW uA now s).2) =
      some { id := id, message := xorEncode p (generateKey keyBytes),
             key := generateKey keyBytes, createdAt := now,
             expiresAt := now + expires * 1000,
             ipReader := none, ipWriter := ipW, userAgent := uA } := by
  unfold Messages.get Messages.set
  rw [find?_append_none _ _ (Messages.get_eq_none hfresh)]
  simp

theorem Messages.destroy_of_absent {id : JSStr} {s : Store}
    (h : ∀ r ∈ s, r.id ≠ id) : Messages.destroy id s = s := by
  apply List.filter_eq_self.mpr
  intro r hr
  simpa using h r hr

theorem Messages.destroy_set_fresh (p keyBytes id : JSStr) (ipW uA : Option JSStr)
    (now : Nat) (s : Store) (hfresh : ∀ r ∈ s, r.id ≠ id) :
    Messages.destroy id ((Messages.set p keyBytes id ipW uA now s).2) = s := by
  unfold Messages.set
  simp only [Messages.destroy, List.filter_append]
  rw [List.filter_eq_self.mpr (by intro r hr; simpa using hfresh r hr)]
  simp [Messages.destroy]

theorem fetchAndConsume_of_absent (san : JSStr → JSStr) (rawId : JSStr) (s : Store)
    (h : ∀ r ∈ s, r.id ≠ san rawId) :
    fetchAndConsume san rawId s = (none, s) := by
  simp only [fetchAndConsume]
  rw [Messages.get_eq_none h, Messages.destroy_of_absent h]

/-- Creating a record with a fresh id and then fetching it succeeds, returns
the original plaintext, and restores the original table. -/
theorem fetchAndConsume_set (san : JSStr → JSStr) (p keyBytes id : JSStr)
    (ipW uA : Option JSStr) (now : Nat) (s : Store)
    (hfresh : ∀ r ∈ s, r.id ≠ id) (hsan : san id = id) :
    fetchAndConsume san id ((Messages.set p keyBytes id ipW uA now s).2) =
      (some p, s) := by
  simp only [fetchAndConsume]
  rw [hsan, Messages.get_set_fresh p keyBytes id ipW uA now s hfresh,
    Messages.destroy_set_fresh p keyBytes id ipW uA now s hfresh]
  simp [xorDecode_xorEncode]

/-! ## C2, C8, C9 -/

/-- C2: for every plaintext p and every freshly generated key k of length
≥ len(p), decoding the encoding of p under k with the same key yields p again
(the byte-wise XOR transform is self-inverse), including for the empty
string. -/
theorem decode_encode_roundtrip (p : JSStr) (bytes : List Nat)
    (hlen : p.length ≤ (generateKey bytes).length) :
    xorDecode (xorEncode p (generateKey bytes)) (generateKey bytes) = p
    ∧ xorDecode (xorEncode [] (generateKey bytes)) (generateKey bytes) = [] :=
  ⟨xorDecode_xorEncode p (generateKey bytes),
   xorDecode_xorEncode [] (generateKey bytes)⟩

theorem decode_encode_roundtrip_witness :
    ([104, 105] : JSStr).length ≤ (generateKey [1, 2]).length
    ∧ xorDecode (xorEncode [104, 105] (generateKey [1, 2])) (generateKey [1, 2])
        = [104, 105] :=
  ⟨by decide, (decode_encode_roundtrip [104, 105] [1, 2] (by decide)).1⟩

/-- C8 counterexample: for the one-character plaintext "a" (code unit 97),
`create` draws `message.length = 1` random bytes (modelled by the draw `[0]`)
and stores a key of length 2, not 1: the hex rendering doubles the length. -/
theorem generated_key_length_counterexample :
    ((Messages.set [97] [0] [48] none none 0 []).2.map
        (fun r => r.key.length)) = [2]
    ∧ ¬ (2 : Nat) = ([97] : JSStr).length := by
  constructor
  · rfl
  · decide

/-- C8 amended: the obfuscation key generated by `create` has twice the length
of the original plaintext (it is the hex string of `plaintext.length` random
bytes). -/
theorem generated_key_length (p keyBytes id : JSStr) (ipW uA : Option JSStr)
    (now : Nat) (s : Store) (hkb : keyBytes.length = p.length) :
    ((Messages.set p keyBytes id ipW uA now s).2.map (fun r => r.key.length)) =
      s.map (fun r => r.key.length) ++ [2 * p.length] := by
  simp [Messages.set, generateKey_length, hkb]

theorem generated_key_length_witness :
    ([5, 6] : JSStr).length = ([104, 105] : JSStr).length
    ∧ ((Messages.set [104, 105] [5, 6] [48] none none 0 []).2.map
          (fun r => r.key.length)) = [2 * ([104, 105] : JSStr).length] :=
  ⟨by decide, generated_key_length [104, 105] [5, 6] [48] none none 0 [] (by decide)⟩

/-! ## C1, C7, C10 -/

/-- C1: after `create(p)` returns id `i` (a fresh id, as the `PRIMARY KEY`
constraint requires), exactly one subsequent `fetchAndConsume(i)` succeeds and
returns `p` — the first one, which restores the table to its pre-create state —
and on any table without `i` (in particular every state thereafter)
`fetchAndConsume(i)` returns `NotFound` and leaves the table unchanged. -/
theorem create_fetchAndConsume_once (san : JSStr → JSStr) (p keyBytes id : JSStr)
    (ipW uA : Option JSStr) (now : Nat) (s : Store)
    (hfresh : ∀ r ∈ s, r.id ≠ id) (hsan : san id = id) :
    fetchAndConsume san id ((Messages.set p keyBytes id ipW uA now s).2) =
      (some p, s)
    ∧ (∀ t : Store, (∀ r ∈ t, r.id ≠ id) → fetchAndConsume san id t = (none, t)) := by
  refine ⟨fetchAndConsume_set san p keyBytes id ipW uA now s hfresh hsan, ?_⟩
  intro t ht
  refine fetchAndConsume_of_absent san id t ?_
  rw [hsan]
  exact ht

theorem create_fetchAndConsume_once_witness :
    ((fun x : JSStr => x) [48] = [48])
    ∧ fetchAndConsume (fun x => x) [48]
        ((Messages.set [104, 105] [1, 2] [48] none none 0 []).2) =
        (some [104, 105], []) :=
  ⟨rfl, (create_fetchAndConsume_once (fun x => x) [104, 105] [1, 2] [48]
      none none 0 [] (by simp) rfl).1⟩

/-- C7: on an id with no live record, `fetchAndConsume` returns `NotFound`
with the table unchanged, and `exists` returns `NotFound` (false); the
`GET /available/:id` handler only reads, so it is modelled as a pure
function of the state. -/
theorem absent_id_not_found (san : JSStr → JSStr) (i : JSStr) (s : Store)
    (h : ∀ r ∈ s, r.id ≠ san i) :
    fetchAndConsume san i s = (none, s) ∧ availableHandler san i s = false := by
  refine ⟨fetchAndConsume_of_absent san i s h, ?_⟩
  simp [availableHandler, Messages.get_eq_none h]

theorem absent_id_not_found_witness :
    fetchAndConsume (fun x => x) [48] [] = (none, [])
    ∧ availableHandler (fun x => x) [48] [] = false :=
  absent_id_not_found (fun x => x) [48] [] (by simp)

/-- C10: the `POST /message` handler stores the `xss`-sanitized body, so the
plaintext later recoverable by retrieval is `san m` — which is `m` itself
exactly when the sanitizer rewrites nothing in `m`. -/
theorem postMessage_stores_sanitized (san : JSStr → JSStr) (m keyBytes id : JSStr)
    (ipW uA : Option JSStr) (now : Nat) (s : Store)
    (hfresh : ∀ r ∈ s, r.id ≠ id) (hsan : san id = id) :
    (fetchAndConsume san id ((postMessage san m keyBytes id ipW uA now s).2)).1 =
      some (san m)
    ∧ (san m = m →
        (fetchAndConsume san id ((postMessage san m keyBytes id ipW uA now s).2)).1 =
          some m) := by
  have h := fetchAndConsume_set san (san m) keyBytes id ipW uA now s hfresh hsan
  constructor
  · simp only [postMessage]
    rw [h]
  · intro hm
    simp only [postMessage]
    rw [h, hm]

theorem postMessage_stores_sanitized_witness :
    ((fun x : JSStr => x) [48] = [48])
    ∧ (fetchAndConsume (fun x => x) [48]
        ((postMessage (fun x => x) [60, 98, 62] [3, 4, 5] [48]
          none none 0 []).2)).1 = some [60, 98, 62] :=
  ⟨rfl, (postMessage_stores_sanitized (fun x => x) [60, 98, 62] [3, 4, 5] [48]
      none none 0 [] (by simp) rfl).1⟩

/-! ## C3: frame effect of consumption -/

theorem fetchAndConsume_snd (san : JSStr → JSStr) (rawId : JSStr) (s : Store) :
    (fetchAndConsume san rawId s).2 = Messages.destroy (san rawId) s := by
  simp only [fetchAndConsume]
  cases Messages.get (san rawId) s <;> rfl

theorem splitFetchAndConsume_snd (san : JSStr → JSStr) (rawId : JSStr)
    (t : SplitStore) :
    (splitFetchAndConsume san rawId t).2 = SplitMessages.destroy (san rawId) t := by
  simp only [splitFetchAndConsume]
  rcases SplitMessages.get (san rawId) t with _ | ⟨m, k⟩ <;> rfl

theorem SplitMessages.get_destroy (id : JSStr) (t : SplitStore) :
    SplitMessages.get id (SplitMessages.destroy id t) = none := by
  unfold SplitMessages.get SplitMessages.destroy
  have hk : (t.keys.filter (fun r => decide (¬ r.id = id))).find?
      (fun r => decide (r.id = id)) = none := by
    apply List.find?_eq_none.mpr
    intro k hk
    have := (List.mem_filter.mp hk).2
    simpa using this
  rw [hk]
  cases t.messages.find? (fun r => decide (r.id = id)) <;> rfl

/-- C3 counterexample (split-table variant, src/unnamed/part_000): a
successful `fetchAndConsume` leaves the `messages` row in persistent storage —
`destroy` there deletes only the `keys` row.  Concretely: create the
one-character message "a" (code 97) with id `[48]`, consume it successfully,
and the `messages` table still contains a row with that id. -/
theorem split_consume_keeps_message_row :
    (splitFetchAndConsume (fun x => x) [48]
        ((SplitMessages.set [97] [5] [48] none none 0 ⟨[], []⟩).2)).1 = some [97]
    ∧ ((splitFetchAndConsume (fun x => x) [48]
        ((SplitMessages.set [97] [5] [48] none none 0 ⟨[], []⟩).2)).2).messages.any
          (fun m => decide (m.id = [48])) = true := by
  decide

/-- C3 amended: a `fetchAndConsume(id)` leaves, in the main variant, exactly
the rows with a different id (the consumed record is deleted, all others are
unchanged); in the split-table variant it deletes only the keys-table entry
for the id — the `messages` table is completely unchanged, every other key
entry survives, and the record becomes unretrievable (`get` returns
`NotFound`). -/
theorem fetchAndConsume_frame (san : JSStr → JSStr) (id : JSStr) (s : Store)
    (t : SplitStore) (hsan : san id = id) :
    ((fetchAndConsume san id s).2 = Messages.destroy id s
      ∧ (∀ r : MsgRecord, r ∈ Messages.destroy id s ↔ r ∈ s ∧ r.id ≠ id))
    ∧ ((splitFetchAndConsume san id t).2.messages = t.messages
      ∧ (∀ k : KeyRecord,
          k ∈ (splitFetchAndConsume san id t).2.keys ↔ k ∈ t.keys ∧ k.id ≠ id)
      ∧ SplitMessages.get id (splitFetchAndConsume san id t).2 = none) := by
  have hmain : (fetchAndConsume san id s).2 = Messages.destroy id s := by
    rw [fetchAndConsume_snd, hsan]
  have hsplit : (splitFetchAndConsume san id t).2 = SplitMessages.destroy id t := by
    rw [splitFetchAndConsume_snd, hsan]
  refine ⟨⟨hmain, ?_⟩, ?_, ?_, ?_⟩
  · intro r
    simp [Messages.destroy, List.mem_filter]
  · rw [hsplit]; rfl
  · intro k
    rw [hsplit]
    simp [SplitMessages.destroy, List.mem_filter]
  · rw [hsplit]
    exact SplitMessages.get_destroy id t

theorem fetchAndConsume_frame_witness :
    ((fun x : JSStr => x) [48] = [48])
    ∧ (fetchAndConsume (fun x => x) [48] []).2 = Messages.destroy [48] [] :=
  ⟨rfl, (fetchAndConsume_frame (fun x => x) [48] [] ⟨[], []⟩ rfl).1.1⟩

/-! ## C5: exists over the record lifecycle -/

/-- C5 counterexample: `Messages.get` (and hence the `GET /available/:id`
handler) has no condition on `expiresAt` — it is not even a function of the
current time.  Concretely: a record created at time 0 carries
`expiresAt = 86400000`; at time 86400001 that moment has passed, the record
was never consumed and never purged, yet `exists` still answers true where the
claim demands false. -/
theorem exists_ignores_expiry :
    ((Messages.set [104] [7] [48] none none 0 []).2.map (fun r => r.expiresAt))
      = [86400000]
    ∧ (86400000 : Nat) < 86400001
    ∧ availableHandler (fun x => x) [48]
        ((Messages.set [104] [7] [48] none none 0 []).2) = true := by
  refine ⟨rfl, by decide, rfl⟩

theorem Messages.get_purge_set_eq_none (p keyBytes id : JSStr)
    (ipW uA : Option JSStr) (now purgeTime : Nat) (s : Store)
    (hfresh : ∀ r ∈ s, r.id ≠ id)
    (hexp : now + expires * 1000 < purgeTime) :
    Messages.get id
      (Messages.purgeExpired purgeTime
        ((Messages.set p keyBytes id ipW uA now s).2)) = none := by
  apply Messages.get_eq_none
  intro r hr
  have hmem := List.mem_filter.mp hr
  rcases List.mem_append.mp hmem.1 with hs | hnew
  · exact hfresh r hs
  · have hre := List.mem_singleton.mp hnew
    rw [hre] at hmem
    have h2 := hmem.2
    simp at h2
    exfalso
    omega

/-- C5 amended: `exists(i)` is true after `create` and before consumption or
purge; false after consumption; an expired-but-unpurged record still reads as
existing (`exists` consults no clock), and `exists` becomes false only once
`purgeExpired` runs at a time past the record's `expiresAt`. -/
theorem exists_lifecycle (san : JSStr → JSStr) (p keyBytes id : JSStr)
    (ipW uA : Option JSStr) (now purgeTime : Nat) (s : Store)
    (hfresh : ∀ r ∈ s, r.id ≠ id) (hsan : san id = id)
    (hexp : now + expires * 1000 < purgeTime) :
    availableHandler san id ((Messages.set p keyBytes id ipW uA now s).2) = true
    ∧ availableHandler san id
        (fetchAndConsume san id ((Messages.set p keyBytes id ipW uA now s).2)).2
        = false
    ∧ availableHandler san id
        (Messages.purgeExpired purgeTime
          ((Messages.set p keyBytes id ipW uA now s).2)) = false := by
  refine ⟨?_, ?_, ?_⟩
  · simp [availableHandler, hsan,
      Messages.get_set_fresh p keyBytes id ipW uA now s hfresh]
  · rw [fetchAndConsume_snd, hsan,
      Messages.destroy_set_fresh p keyBytes id ipW uA now s hfresh]
    simp [availableHandler, hsan, Messages.get_eq_none hfresh]
  · simp [availableHandler, hsan,
      Messages.get_purge_set_eq_none p keyBytes id ipW uA now purgeTime s
        hfresh hexp]

theorem exists_lifecycle_witness :
    ((fun x : JSStr => x) [48] = [48])
    ∧ (0 + expires * 1000 < 86400001)
    ∧ availableHandler (fun x => x) [48]
        ((Messages.set [104] [7] [48] none none 0 []).2) = true :=
  ⟨rfl, by decide,
    (exists_lifecycle (fun x => x) [104] [7] [48] none none 0 86400001 []
      (by simp) rfl (by decide)).1⟩

/-! ## C6: the expiry purge -/

theorem SplitMessages.purgeExpired_messages (now : Nat) (t : SplitStore) :
    (SplitMessages.purgeExpired now t).messages =
      t.messages.filter (fun m => decide (¬ m.expiresAt < now)) := rfl

theorem SplitMessages.purgeExpired_keys (now : Nat) (t : SplitStore) :
    (SplitMessages.purgeExpired now t).keys =
      t.keys.filter (fun k => t.messages.any
        (fun m => decide (m.id = k.id) && decide (now < m.expiresAt))) := rfl

/-- C6 counterexample (split-table variant, src/unnamed/part_000): the key
sweep keeps a key only when its message row has `expiresAt > now`, while the
message sweep deletes only rows with `expiresAt < now`.  A record with
`expiresAt` exactly equal to `now` (here both 5) is therefore touched — its
key entry is deleted — although `expiresAt ≥ now`. -/
theorem purge_touches_boundary_record :
    SplitMessages.purgeExpired 5
        ⟨[⟨[48], [97], 0, 5, none, none, none⟩], [⟨[48], [107]⟩]⟩ =
      ⟨[⟨[48], [97], 0, 5, none, none, none⟩], []⟩
    ∧ ¬ (⟨[⟨[48], [97], 0, 5, none, none, none⟩], [⟨[48], [107]⟩]⟩ : SplitStore)
        = ⟨[⟨[48], [97], 0, 5, none, none, none⟩], []⟩ := by
  decide

/-- C6 amended: in the main variant, `purgeExpired(now)` keeps exactly the
records with `expiresAt ≥ now` and is a no-op when run again with the same
`now`.  In the split-table variant the `messages` table likewise keeps exactly
the rows with `expiresAt ≥ now`, but a key entry survives only when its
message row has `expiresAt` strictly greater than `now` — so a record with
`expiresAt = now` loses its key entry; running it twice with the same `now` is
still a no-op the second time. -/
theorem purgeExpired_spec (now : Nat) (s : Store) (t : SplitStore) :
    (∀ r : MsgRecord, r ∈ Messages.purgeExpired now s ↔ r ∈ s ∧ ¬ r.expiresAt < now)
    ∧ Messages.purgeExpired now (Messages.purgeExpired now s) =
        Messages.purgeExpired now s
    ∧ (∀ m : SplitMsgRecord,
        m ∈ (SplitMessages.purgeExpired now t).messages ↔
          m ∈ t.messages ∧ ¬ m.expiresAt < now)
    ∧ (∀ k : KeyRecord,
        k ∈ (SplitMessages.purgeExpired now t).keys ↔
          k ∈ t.keys ∧ ∃ m ∈ t.messages, m.id = k.id ∧ now < m.expiresAt)
    ∧ SplitMessages.purgeExpired now (SplitMessages.purgeExpired now t) =
        SplitMessages.purgeExpired now t := by
  refine ⟨?_, ?_, ?_, ?_, ?_⟩
  · intro r
    simp [Messages.purgeExpired, List.mem_filter]
  · apply List.filter_eq_self.mpr
    intro r hr
    exact (List.mem_filter.mp hr).2
  · intro m
    rw [SplitMessages.purgeExpired_messages]
    simp [List.mem_filter]
  · intro k
    rw [SplitMessages.purgeExpired_keys]
    simp [List.mem_filter, List.any_eq_true]
  · have hmsg : (SplitMessages.purgeExpired now
        (SplitMessages.purgeExpired now t)).messages =
        (SplitMessages.purgeExpired now t).messages := by
      rw [SplitMessages.purgeExpired_messages (t := SplitMessages.purgeExpired now t)]
      apply List.filter_eq_self.mpr
      intro m hm
      rw [SplitMessages.purgeExpired_messages] at hm
      exact (List.mem_filter.mp hm).2
    have hkeys : (SplitMessages.purgeExpired now
        (SplitMessages.purgeExpired now t)).keys =
        (SplitMessages.purgeExpired now t).keys := by
      rw [SplitMessages.purgeExpired_keys (t := SplitMessages.purgeExpired now t)]
      apply List.filter_eq_self.mpr
      intro k hk
      rw [SplitMessages.purgeExpired_keys] at hk
      have hany := (List.mem_filter.mp hk).2
      rcases List.any_eq_true.mp hany with ⟨m, hm, hpm⟩
      apply List.any_eq_true.mpr
      refine ⟨m, ?_, hpm⟩
      rw [SplitMessages.purgeExpired_messages]
      apply List.mem_filter.mpr
      refine ⟨hm, ?_⟩
      have h2 := (Bool.and_eq_true _ _).mp hpm
      have hlt : now < m.expiresAt := by simpa using h2.2
      simp
      omega
    cases hpp : SplitMessages.purgeExpired now (SplitMessages.purgeExpired now t)
    cases hp : SplitMessages.purgeExpired now t
    rw [hpp, hp] at hmsg hkeys
    simp at hmsg hkeys
    rw [hmsg, hkeys]

/-- C9: every record produced by `create` has
`expiresAt = createdAt + expires * 1000` where `expires` is the process-wide
constant 86400 seconds (24 hours). -/
theorem expiresAt_eq_createdAt_add_ttl (p keyBytes id : JSStr)
    (ipW uA : Option JSStr) (now : Nat) (s : Store) :
    ((Messages.set p keyBytes id ipW uA now s).2.map
        (fun r => (r.createdAt, r.expiresAt))) =
      s.map (fun r => (r.createdAt, r.expiresAt)) ++ [(now, now + expires * 1000)]
    ∧ expires * 1000 = 24 * 60 * 60 * 1000 := by
  constructor
  · simp [Messages.set]
  · decide
